import Mathlib

/-!
Verification development for the dreamware ingestion pipeline backend.

We shallowly embed the job-processing worker (`app/main.py`), the agent tool
surface (`app/agent/tools.py`) and the jobs router (`app/routers/jobs.py`) as
pure Lean functions, and prove the specified properties about them.  Machine
detail that the claims do not touch (SQL sessions, the headless browser, the
LLM) is modelled by explicit oracles passed as function arguments.
-/

namespace Dreamware

/-! ### Character classes (ASCII model of Python's `re` classes)

Python's `\w` is `[A-Za-z0-9_]`, `\s` is `[ \t\n\r\f\v]` (ASCII range; the
titles and bodies this service handles are ASCII). -/

def isWordChar (c : Char) : Bool :=
  (('a' ≤ c && c ≤ 'z') || ('A' ≤ c && c ≤ 'Z') || ('0' ≤ c && c ≤ '9') || c = '_')

def isSpaceChar (c : Char) : Bool :=
  (c = ' ' || c = '\t' || c = '\n' || c = '\r' || c = '\x0b' || c = '\x0c')

/-! ### Slug generation (`tools._generate_slug`)

```python
def _generate_slug(title: str) -> str:
    slug = title.lower().strip()
    slug = re.sub(r'[^\w\s-]', '', slug)
    slug = re.sub(r'[-\s]+', '-', slug)
    return slug[:100]  # Limit length
```
-/

def isHyphenOrSpace (c : Char) : Bool := isSpaceChar c || c = '-'

/-- Scanner for `re.sub(r'[-\s]+', '-', s)`: `inRun` records whether the
previous character belonged to a hyphen/whitespace run (in which case further
run characters are absorbed into the hyphen already emitted). -/
def collapseRunsAux : Bool → List Char → List Char
  | _, [] => []
  | inRun, c :: rest =>
    if isHyphenOrSpace c then
      if inRun then collapseRunsAux true rest
      else '-' :: collapseRunsAux true rest
    else
      c :: collapseRunsAux false rest

/-- `re.sub(r'[-\s]+', '-', s)`: replace every maximal run of hyphen/whitespace
characters by a single hyphen. -/
def collapseRuns (l : List Char) : List Char :=
  collapseRunsAux false l

/-- `str.strip()`: remove leading and trailing whitespace. -/
def pyStrip (l : List Char) : List Char :=
  ((l.dropWhile isSpaceChar).reverse.dropWhile isSpaceChar).reverse

def generateSlug (title : String) : String :=
  let s := (title.toList.map Char.toLower)
  let s := pyStrip s
  let s := s.filter (fun c => isWordChar c || isSpaceChar c || c = '-')
  let s := collapseRuns s
  String.mk (s.take 100)

/-! ### Slug uniqueness probing (`tools.create_app`, lines 197-209)

```python
    base_slug = _generate_slug(title)
    slug = base_slug
    counter = 1
    while True:
        existing = await ctx.deps.db.execute(select(App).filter(App.slug == slug))
        if not existing.scalar():
            break
        slug = f"{base_slug}-{counter}"
        counter += 1
```

The candidates probed, in order, are `base`, `base-1`, `base-2`, ….  We embed
the loop with explicit fuel; since each probe against a finite set of occupied
slugs tries a fresh candidate string, fuel `occupied.length + 1` is enough
whenever a free candidate exists within that range. -/

def slugCandidate (base : String) : Nat → String
  | 0 => base
  | Nat.succ k => base ++ "-" ++ toString (k + 1)

def probeSlug (occupied : List String) (base : String) : Nat → Nat → String
  | 0, k => slugCandidate base k
  | Nat.succ fuel, k =>
    if slugCandidate base k ∈ occupied then probeSlug occupied base fuel (k + 1)
    else slugCandidate base k

/-- The slug `create_app` assigns: first candidate among `base`, `base-1`,
`base-2`, … that no existing listing occupies. -/
def uniqueSlug (occupied : List String) (base : String) : String :=
  probeSlug occupied base (occupied.length + 1) 0

/-! ### URL extraction (`main.extract_urls`)

```python
URL_PATTERN = re.compile(r'https?://[^\s\)\]\>\"\']+')

def extract_urls(text: str) -> list[str]:
    if not text:
        return []
    urls = URL_PATTERN.findall(text)
    cleaned = []
    for url in urls:
        url = url.rstrip(".,;:!?")
        if "reddit.com" in url or "redd.it" in url:
            continue
        if "imgur.com" in url or "i.redd.it" in url:
            continue
        cleaned.append(url)
    return cleaned
```
-/

/-- A character that terminates a URL match: the complement of
`[^\s\)\]\>\"\']`. -/
def urlStopChar (c : Char) : Bool :=
  isSpaceChar c || c = ')' || c = ']' || c = '>' || c = '"' || c = '\''

/-- Remove `pre` from the front of `l`, if it is a prefix. -/
def dropPrefix? : List Char → List Char → Option (List Char)
  | [], l => some l
  | _ :: _, [] => none
  | p :: ps, c :: cs => if p = c then dropPrefix? ps cs else none

/-- Try to match `https?://[^\s\)\]\>\"\']+` at the head of `l`; on success
return the matched characters and the remainder of the input. -/
def matchUrlAt (l : List Char) : Option (List Char × List Char) :=
  let withScheme (scheme : List Char) (rest : List Char) :
      Option (List Char × List Char) :=
    let body := rest.takeWhile (fun c => !urlStopChar c)
    if body.isEmpty then none
    else some (scheme ++ body, rest.dropWhile (fun c => !urlStopChar c))
  match dropPrefix? "https://".toList l with
  | some rest => withScheme "https://".toList rest
  | none =>
    match dropPrefix? "http://".toList l with
    | some rest => withScheme "http://".toList rest
    | none => none

/-- `URL_PATTERN.findall`: scan left to right, emitting each (maximal) match
and resuming after it.  `fuel` bounds the scan; each step consumes at least
one character, so `l.length` fuel suffices. -/
def findallUrls : Nat → List Char → List (List Char)
  | 0, _ => []
  | Nat.succ _, [] => []
  | Nat.succ fuel, c :: rest =>
    match matchUrlAt (c :: rest) with
    | some (m, rest') => m :: findallUrls fuel rest'
    | none => findallUrls fuel rest

/-- `url.rstrip(".,;:!?")`. -/
def rstripPunct (l : List Char) : List Char :=
  (l.reverse.dropWhile (fun c =>
    c = '.' || c = ',' || c = ';' || c = ':' || c = '!' || c = '?')).reverse

/-- `"needle" in hay` (Python substring containment). -/
def strContains (hay needle : String) : Bool :=
  decide (needle.toList <:+: hay.toList)

/-- The host filter of `extract_urls`: Reddit's own domains and its usual
image hosts are discarded. -/
def isFilteredUrl (url : String) : Bool :=
  strContains url "reddit.com" || strContains url "redd.it" ||
    strContains url "imgur.com" || strContains url "i.redd.it"

def extract_urls (text : String) : List String :=
  if text = "" then []
  else
    let urls := findallUrls text.toList.length text.toList
    (urls.map (fun u => String.mk (rstripPunct u))).filter
      (fun u => !isFilteredUrl u)

/-! ### The listing rows the dedup checks consult

Only the columns the worker reads are modelled: `slug` (unique human-readable
identifier), `post_url` (source-tracking permalink) and `app_url` (canonical
URL of the listed app). -/

structure AppRec where
  slug : String
  postUrl : Option String := none
  appUrl : Option String := none
deriving Repr, DecidableEq

/-- `main.check_post_processed`: does some listing's `post_url` equal the
permalink? -/
def check_post_processed (db : List AppRec) (postUrl : String) : Bool :=
  db.any (fun a => a.postUrl = some postUrl)

/-- SQL `stored ILIKE '%pat%'`: case-insensitive substring containment
(a `NULL` stored value never matches). -/
def ilikeContains (stored pat : String) : Bool :=
  decide ((pat.toList.map Char.toLower) <:+: (stored.toList.map Char.toLower))

/-- `main.check_urls_exist`: the `app_url` values of listings whose `app_url`
matches (`ILIKE '%url%'`) one of the candidate URLs. -/
def check_urls_exist (db : List AppRec) (urls : List String) : List String :=
  if urls.isEmpty then []
  else
    db.filterMap (fun a =>
      match a.appUrl with
      | some stored =>
        if urls.any (fun q => ilikeContains stored q) then some stored else none
      | none => none)

/-! ### Posts and `main.process_single_post` -/

/-- A Reddit post as validated by `routers.jobs.RedditPost` (the float
`created_utc` field plays no role in processing and is omitted). -/
structure Post where
  title : String := ""
  selftext : String := ""
  permalink : String := ""
  score : Int := 0
  extractedUrls : List String := []
deriving Repr, DecidableEq

/-- Permalink normalization done in `process_single_post` (and again in
`build_agent_prompt`): prefix relative permalinks with the site root. -/
def normPermalink (permalink : String) : String :=
  if "http".toList.isPrefixOf permalink.toList then permalink
  else "https://reddit.com" ++ permalink

/-- `main.build_agent_prompt`. -/
def build_agent_prompt (post : Post) : String :=
  let permalink := normPermalink post.permalink
  "Evaluate this Reddit post from r/SideProject. \n\n" ++
  "**Decision criteria:**\n" ++
  "- If it showcases a real app or project worth adding to our platform, create an app listing.\n" ++
  "- SKIP if it\x27s: spam, a question/discussion, hiring post, self-promotion without an app, or low-quality content.\n" ++
  "- If you decide to create an app, use post_url=\"" ++ permalink ++
    "\" to track the source.\n\n" ++
  "**Post Title:** " ++ post.title ++ "\n\n" ++
  "**Post Content:**\n" ++ post.selftext ++ "\n\n" ++
  "If you create an app listing, make sure to:\n" ++
  "1. Visit the app URL and take screenshots\n" ++
  "2. Check for duplicates first using search_apps\n" ++
  "3. Write compelling title, prompt_text, and prd_text\n" ++
  "4. Set appropriate tags and tools\n"

/-- `urls = post.get("extracted_urls", []) or extract_urls(selftext)`:
Python's `or` falls through on an *empty* pre-extracted list. -/
def candidateUrls (post : Post) : List String :=
  if post.extractedUrls.isEmpty then extract_urls post.selftext
  else post.extractedUrls

/-- Outcome of `process_single_post`, up to the (external) agent run: either
one of the three skip dicts, or the agent is invoked with the built prompt and
its result dict is returned. -/
inductive SPResult where
  | skipNoUrls
  | skipPostExists
  | skipUrlExists (existing : List String)
  | agentRun (prompt : String)
deriving Repr, DecidableEq

/-- `main.process_single_post`, with the agent run left symbolic. -/
def process_single_post (db : List AppRec) (post : Post) : SPResult :=
  let permalink := normPermalink post.permalink
  let urls := candidateUrls post
  if urls.isEmpty then .skipNoUrls
  else if check_post_processed db permalink then .skipPostExists
  else
    let existing := check_urls_exist db urls
    if !existing.isEmpty then .skipUrlExists existing
    else .agentRun (build_agent_prompt post)

/-! ### Ingestion jobs (`models.IngestionJob`, `routers/jobs.py`, `main.process_job`)

Timestamps are modelled as booleans recording whether they have been stamped;
their wall-clock values are outside the embedding. -/

inductive JobStatus where
  | pending
  | running
  | completed
  | failed
  | cancelled
deriving Repr, DecidableEq

def JobStatus.value : JobStatus → String
  | .pending => "pending"
  | .running => "running"
  | .completed => "completed"
  | .failed => "failed"
  | .cancelled => "cancelled"

structure Job where
  status : JobStatus
  totalPosts : Nat
  processedPosts : Nat
  createdApps : Nat
  skippedPosts : Nat
  errorCount : Nat
  postsData : List Post
  createdAppIds : List Nat
  errorMessage : Option String
  logEntries : List String
  cancelRequested : Bool
  startedStamped : Bool
  completedStamped : Bool
deriving Repr, DecidableEq

/-- The job record `routers.jobs.create_ingestion_job` inserts (status
`PENDING`, zeroed counters, `total_posts = len(posts_data)`). -/
def mkJob (posts : List Post) : Job :=
  { status := .pending
    totalPosts := posts.length
    processedPosts := 0
    createdApps := 0
    skippedPosts := 0
    errorCount := 0
    postsData := posts
    createdAppIds := []
    errorMessage := none
    logEntries := []
    cancelRequested := false
    startedStamped := false
    completedStamped := false }

/-! #### One iteration of the `process_job` post loop

The result dict of `process_single_post`/`run_agent`, as `process_job`
discriminates it (`skipped` key, then `success` key, else error), together
with the possibility that processing the post raised an exception. -/

inductive PostOutcome where
  | skipped (reason : String)
  | success (appIds : List Nat)
  | failure (error : String)
  | exn (msg : String)
deriving Repr, DecidableEq

-- The log lines `process_job` appends (Python f-strings).
def startLog (n : Nat) : String :=
  "Starting processing of " ++ toString n ++ " posts"
def cancelLog (i total : Nat) : String :=
  "Cancelled at post " ++ toString (i + 1) ++ "/" ++ toString total
def processingLog (i total : Nat) (title : String) : String :=
  "[" ++ toString (i + 1) ++ "/" ++ toString total ++ "] Processing: " ++
    title.take 60 ++ "..."
def skippedLog (reason : String) : String := "  Skipped: " ++ reason
def createdLog (ids : List Nat) : String := "  Created apps: " ++ toString ids
def errorLog (err : String) : String := "  Error: " ++ err.take 200
def exceptionLog (msg : String) : String := "  Exception: " ++ msg.take 200
def completedLog (job : Job) : String :=
  "Completed. Created " ++ toString job.createdApps ++ " apps, skipped " ++
    toString job.skippedPosts ++ ", errors " ++ toString job.errorCount

/-- Folding one post's outcome into the job counters and log
(`process_job` lines 191-210). -/
def applyOutcome (o : PostOutcome) (job : Job) : Job :=
  match o with
  | .skipped reason =>
    { job with skippedPosts := job.skippedPosts + 1
               logEntries := job.logEntries ++ [skippedLog reason] }
  | .success ids =>
    { job with createdApps := job.createdApps + ids.length
               createdAppIds := job.createdAppIds ++ ids
               logEntries := job.logEntries ++ [createdLog ids] }
  | .failure err =>
    { job with errorCount := job.errorCount + 1
               logEntries := job.logEntries ++ [errorLog err] }
  | .exn msg =>
    { job with errorCount := job.errorCount + 1
               logEntries := job.logEntries ++ [exceptionLog msg] }

/-- The state committed when cancellation is observed at post index `i`
(0-based): status `CANCELLED`, cutoff log line, completion stamp. -/
def cancelledJob (i total : Nat) (job : Job) : Job :=
  { job with status := .cancelled
             logEntries := job.logEntries ++ [cancelLog i total]
             completedStamped := true }

/-- The state committed after the loop ends normally: status `COMPLETED`,
summary log line, completion stamp. -/
def completedJob (job : Job) : Job :=
  { job with status := .completed
             logEntries := job.logEntries ++ [completedLog job]
             completedStamped := true }

/-- The intermediate state committed when iteration `i` logs its
"Processing:" line (line 188-189). -/
def loggedJob (total i : Nat) (post : Post) (job : Job) : Job :=
  { job with logEntries := job.logEntries ++ [processingLog i total post.title] }

/-- The state committed at the end of iteration `i`: the "Processing:" log
line, the outcome folded in, and `processed_posts` incremented. -/
def stepJob (outcome : Nat → PostOutcome) (total i : Nat) (post : Post)
    (job : Job) : Job :=
  let j2 := applyOutcome (outcome i) (loggedJob total i post job)
  { j2 with processedPosts := j2.processedPosts + 1 }

/-- The post loop of `process_job` (lines 176-216), as the sequence of job
snapshots committed to the database, in order.  `cancel j` is the value of the
externally settable `cancel_requested` flag as re-read (`db.refresh`) at the
start of iteration `j`; `outcome j` is the result of processing post `j`.
Each iteration commits the "Processing:" log line, then the updated counters;
observing cancellation or finishing the loop commits one final state. -/
def process_loop (cancel : Nat → Bool) (outcome : Nat → PostOutcome)
    (total : Nat) : List Post → Nat → Job → List Job
  | [], _, job => [completedJob job]
  | post :: rest, i, job =>
    if cancel i then [cancelledJob i total job]
    else
      loggedJob total i post job :: stepJob outcome total i post job ::
        process_loop cancel outcome total rest (i + 1)
          (stepJob outcome total i post job)

/-- `main.process_job` as the sequence of committed job states.  `userFound`
records whether the creator user resolves (line 156-164); a non-`PENDING`
job is returned untouched (line 137). -/
def process_job_states (userFound : Bool) (cancel : Nat → Bool)
    (outcome : Nat → PostOutcome) (job : Job) : List Job :=
  if job.status = .pending then
    let j1 := { job with status := .running, startedStamped := true }
    if userFound then
      let posts := j1.postsData
      let j2 := { j1 with logEntries := j1.logEntries ++ [startLog posts.length] }
      j1 :: j2 :: process_loop cancel outcome posts.length posts 0 j2
    else
      [j1, { j1 with status := .failed,
                     errorMessage := some "Creator user not found",
                     completedStamped := true }]
  else []

/-- The final job state `process_job` leaves in the database. -/
def process_job (userFound : Bool) (cancel : Nat → Bool)
    (outcome : Nat → PostOutcome) (job : Job) : Job :=
  (process_job_states userFound cancel outcome job).getLastD job

/-- The log line an iteration appends for its outcome. -/
def outcomeLog : PostOutcome → String
  | .skipped r => skippedLog r
  | .success ids => createdLog ids
  | .failure e => errorLog e
  | .exn m => exceptionLog m

/-- The job state right before the post loop starts: marked RUNNING, start
stamped, "Starting processing" logged. -/
def startedJob (posts : List Post) : Job :=
  { mkJob posts with
      status := .running
      startedStamped := true
      logEntries := [startLog posts.length] }

/-- Final state of the post loop (last committed snapshot). -/
def loopLast (cancel : Nat → Bool) (outcome : Nat → PostOutcome) (total : Nat)
    (rest : List Post) (i : Nat) (job : Job) : Job :=
  (process_loop cancel outcome total rest i job).getLastD job

/-! #### Outcome counting helpers -/

def isSkipOutcome : PostOutcome → Bool
  | .skipped _ => true
  | _ => false

def isCreatedOutcome : PostOutcome → Bool
  | .success _ => true
  | _ => false

def isErrOutcome : PostOutcome → Bool
  | .failure _ => true
  | .exn _ => true
  | _ => false

/-- Number of indices `j` with `s ≤ j < s + len` whose outcome satisfies `p`. -/
def countFrom (p : PostOutcome → Bool) (outcome : Nat → PostOutcome)
    (s : Nat) : Nat → Nat
  | 0 => 0
  | Nat.succ len => (if p (outcome s) then 1 else 0) + countFrom p outcome (s + 1) len

/-! ### The cancel endpoint (`routers.jobs.cancel_ingestion_job`) -/

inductive CancelResponse where
  | notFound (detail : String)
  | badRequest (detail : String)
  | ok (cancelRequested : Bool) (message : String)
deriving Repr, DecidableEq

/-- `POST /jobs/ingestion/{job_id}/cancel`: given the (possibly absent) job
record it reads, returns the record it leaves behind and the HTTP response. -/
def cancel_ingestion_job (jobId : Nat) : Option Job → Option Job × CancelResponse
  | none =>
    (none, .notFound ("Job " ++ toString jobId ++ " not found"))
  | some job =>
    if job.status = .completed ∨ job.status = .failed ∨ job.status = .cancelled then
      (some job,
        .badRequest ("Cannot cancel job with status " ++ job.status.value))
    else
      (some { job with cancelRequested := true },
        .ok true "Cancellation requested. Job will stop after current post.")

/-! ### Run-scoped agent state and the tool surface (`app/agent/tools.py`)

`AgentDeps` carries the per-run mutable state the tools touch; the database of
listings and the id assigned by `flush()` are folded into the same record.
Media rows (`AppMedia`) are pairs of listing id and media URL. -/

structure AgentDeps where
  browserStepCount : Nat
  savedScreenshots : List String
  createdAppIds : List Nat
  db : List AppRec
  media : List (Nat × String)
  nextAppId : Nat
deriving Repr, DecidableEq

def MAX_BROWSER_STEPS : Nat := 10

def limitMessage : String :=
  "Browser step limit (" ++ toString MAX_BROWSER_STEPS ++
    ") reached. Create the app with information gathered so far."

/-- `tools._check_browser_limit`: at or above the ceiling return the error
dict and leave the counter alone; below it, count the step. -/
def _check_browser_limit (d : AgentDeps) : Option String × AgentDeps :=
  if MAX_BROWSER_STEPS ≤ d.browserStepCount then (some limitMessage, d)
  else (none, { d with browserStepCount := d.browserStepCount + 1 })

/-- The five step-limited browser primitives. -/
inductive BrowserAct where
  | navigate (url : String)
  | screenshot (name : String)
  | getContent
  | click (selector : String)
  | scroll (direction : String)
deriving Repr, DecidableEq

/-- The dict a browser primitive returns (its contents come from the external
headless browser; only the keys the tools inspect are modelled). -/
structure BrowserResult where
  success : Bool := false
  filePath : Option String := none
  payload : String := ""
deriving Repr, DecidableEq

/-- Structured result of one tool call. -/
inductive ToolResult where
  | err (message : String)
  | browser (r : BrowserResult)
  | created (appId : Nat) (slug : String) (title : String) (url : String)
      (mediaUploaded : Nat) (mediaErrors : List String)
deriving Repr, DecidableEq

/-- Common body of `browser_navigate` / `browser_screenshot` /
`browser_get_content` / `browser_click` / `browser_scroll`: consult the step
limit, then perform the action through the (external) browser `exec`.  The
third component lists the browser actions actually performed, so that "the
underlying action is not performed" is expressible.  A successful screenshot
with a file path is queued for auto-upload. -/
def runBrowserTool (exec : BrowserAct → BrowserResult) (act : BrowserAct)
    (d : AgentDeps) : ToolResult × AgentDeps × List BrowserAct :=
  match _check_browser_limit d with
  | (some msg, d') => (.err msg, d', [])
  | (none, d') =>
    let r := exec act
    let d'' :=
      match act with
      | .screenshot _ =>
        if r.success && r.filePath.isSome then
          { d' with savedScreenshots := d'.savedScreenshots ++ [r.filePath.getD ""] }
        else d'
      | _ => d'
    (.browser r, d'', [act])

/-- Arguments of `tools.create_app`. -/
structure CreateAppArgs where
  title : String
  promptText : String
  prdText : String
  status : String
  toolIds : List Nat
  tagIds : List Nat
  appUrl : Option String := none
  youtubeUrl : Option String := none
  postUrl : Option String := none
deriving Repr, DecidableEq

/-- `AppStatus(status)` succeeds exactly on the three enum values. -/
def validStatus (s : String) : Bool :=
  s = "Concept" || s = "WIP" || s = "Live"

/-- `pathlib.Path(p).name`: the final `/`-separated component. -/
def pathName (p : String) : String :=
  String.mk ((p.toList.reverse.takeWhile (fun c => !(c = '/'))).reverse)

/-- `tools.create_app`.  `upload p` is the outcome of
`_upload_and_attach_media` for screenshot file `p`: either the stored media
URL or the structured error message (S3 and the network are external; that
helper converts their failures to error dicts, never exceptions). -/
def create_app (upload : String → Except String String) (a : CreateAppArgs)
    (d : AgentDeps) : ToolResult × AgentDeps :=
  if !validStatus a.status then
    (.err ("Invalid status: " ++ a.status ++
      ". Must be \x27Concept\x27, \x27WIP\x27, or \x27Live\x27."), d)
  else if a.status = "Live" && a.appUrl.isNone then
    (.err "app_url is required when status is \x27Live\x27", d)
  else
    let slug := uniqueSlug (d.db.map (fun r => r.slug)) (generateSlug a.title)
    let appId := d.nextAppId
    let newApp : AppRec := { slug := slug, postUrl := a.postUrl, appUrl := a.appUrl }
    let uploads := d.savedScreenshots.map (fun p => (p, upload p))
    let mediaUploaded :=
      (uploads.filter (fun x => match x.2 with | .ok _ => true | .error _ => false)).length
    let mediaErrors := uploads.filterMap (fun x =>
      match x.2 with
      | .error e => some (pathName x.1 ++ ": " ++ e)
      | .ok _ => none)
    let newMedia := uploads.filterMap (fun x =>
      match x.2 with
      | .ok u => some (appId, u)
      | .error _ => none)
    (.created appId slug a.title ("https://show-your.app/apps/" ++ slug)
        mediaUploaded mediaErrors,
      { d with db := d.db ++ [newApp]
               createdAppIds := d.createdAppIds ++ [appId]
               savedScreenshots := []
               media := d.media ++ newMedia
               nextAppId := d.nextAppId + 1 })

/-- The slug `create_app` assigns for arguments `a` against database `d.db`. -/
def createAppSlug (a : CreateAppArgs) (d : AgentDeps) : String :=
  uniqueSlug (d.db.map (fun r => r.slug)) (generateSlug a.title)

/-! ### Concrete fixtures used by witness theorems -/

def exDeps : AgentDeps :=
  { browserStepCount := 10, savedScreenshots := [], createdAppIds := [],
    db := [], media := [], nextAppId := 1 }

def exArgs : CreateAppArgs :=
  { title := "T", promptText := "hook", prdText := "desc", status := "Concept",
    toolIds := [], tagIds := [] }

def exDeps9 : AgentDeps :=
  { exDeps with savedScreenshots := ["/tmp/shots/a.png", "/tmp/shots/b.png"] }

def exUpload : String → Except String String :=
  fun p =>
    if p = "/tmp/shots/a.png" then .error "Upload failed: boom"
    else .ok "https://cdn.example/x.png"

def exPosts : List Post :=
  [{ title := "A", permalink := "/r/a" },
   { title := "B", permalink := "/r/b" },
   { title := "C", permalink := "/r/c" }]

/-- Cancellation requested while post 0 is being processed (the sticky flag
reads true from iteration 1 on). -/
def exCancelAt1 : Nat → Bool := fun j => decide (1 ≤ j)

def exOutcomeSkip : Nat → PostOutcome := fun _ => PostOutcome.skipped "no_urls"

def exOutcomeErr : Nat → PostOutcome := fun j =>
  if j = 1 then PostOutcome.exn "boom" else PostOutcome.skipped "no_urls"

end Dreamware

namespace Dreamware

-- Sanity examples (kept as anonymous examples; they document the embedding).
example : generateSlug "PixelPet - AI Companion!" = "pixelpet-ai-companion" := by
  decide

example :
    extract_urls "check out https://example.com/app! and https://reddit.com/r/x" =
      ["https://example.com/app"] := by
  decide

/-! ## Helper lemmas -/

/-- `probeSlug` returns the first free candidate: if candidates `k0 … k0+d-1`
are all occupied and candidate `k0+d` is free, with enough fuel the probe
settles on candidate `k0+d`. -/
theorem probeSlug_eq (occupied : List String) (base : String) :
    ∀ (d fuel k0 : Nat), d < fuel →
      (∀ j, j < d → slugCandidate base (k0 + j) ∈ occupied) →
      slugCandidate base (k0 + d) ∉ occupied →
      probeSlug occupied base fuel k0 = slugCandidate base (k0 + d) := by
  intro d
  induction d with
  | zero =>
    intro fuel k0 hfuel _ hfree
    match fuel, hfuel with
    | Nat.succ f, _ =>
      simp only [probeSlug]
      rw [if_neg (by simpa using hfree)]
      simp
  | succ d ih =>
    intro fuel k0 hfuel hocc hfree
    match fuel, hfuel with
    | Nat.succ f, hfuel =>
      simp only [probeSlug]
      rw [if_pos (by simpa using hocc 0 (Nat.succ_pos d))]
      have h1 : ∀ j, j < d → slugCandidate base (k0 + 1 + j) ∈ occupied := by
        intro j hj
        have := hocc (j + 1) (by omega)
        simpa [Nat.add_assoc, Nat.add_comm 1 j] using this
      have h2 : slugCandidate base (k0 + 1 + d) ∉ occupied := by
        have : k0 + 1 + d = k0 + (d + 1) := by omega
        rw [this]; exact hfree
      have := ih f (k0 + 1) (by omega) h1 h2
      rw [this]
      congr 1
      omega

/-- Full behaviour of `create_app` on validation-clean arguments: the result
is the success dict (new id, assigned slug, per-file media outcomes) and the
state gains the new listing, with screenshots cleared. -/
theorem create_app_ok (upload : String → Except String String)
    (a : CreateAppArgs) (d : AgentDeps)
    (hs : validStatus a.status = true)
    (hl : a.status = "Live" → a.appUrl.isNone = false) :
    create_app upload a d =
      (.created d.nextAppId (createAppSlug a d) a.title
        ("https://show-your.app/apps/" ++ createAppSlug a d)
        ((d.savedScreenshots.filter (fun p =>
            match upload p with | .ok _ => true | .error _ => false)).length)
        (d.savedScreenshots.filterMap (fun p =>
            match upload p with
            | .error e => some (pathName p ++ ": " ++ e)
            | .ok _ => none)),
       { d with
          db := d.db ++
            [{ slug := createAppSlug a d, postUrl := a.postUrl, appUrl := a.appUrl }],
          createdAppIds := d.createdAppIds ++ [d.nextAppId],
          savedScreenshots := [],
          media := d.media ++ d.savedScreenshots.filterMap (fun p =>
            match upload p with
            | .ok u => some (d.nextAppId, u)
            | .error _ => none),
          nextAppId := d.nextAppId + 1 }) := by
  have hlive : (a.status = "Live" && a.appUrl.isNone) = false := by
    by_cases h : a.status = "Live"
    · simp [h, hl h]
    · simp [h]
  simp only [create_app, hs, hlive, Bool.not_true, Bool.false_eq_true, if_false,
    createAppSlug, List.filter_map, List.filterMap_map, List.length_map,
    Function.comp]
  rfl

/-! ### Lemmas about the post loop of `process_job` -/

theorem stepJob_proj (outcome : Nat → PostOutcome) (total i : Nat)
    (post : Post) (job : Job) :
    (stepJob outcome total i post job).processedPosts = job.processedPosts + 1 ∧
    (stepJob outcome total i post job).skippedPosts =
      job.skippedPosts + (if isSkipOutcome (outcome i) then 1 else 0) ∧
    (stepJob outcome total i post job).errorCount =
      job.errorCount + (if isErrOutcome (outcome i) then 1 else 0) ∧
    (stepJob outcome total i post job).totalPosts = job.totalPosts ∧
    (stepJob outcome total i post job).status = job.status ∧
    (stepJob outcome total i post job).logEntries =
      job.logEntries ++ [processingLog i total post.title, outcomeLog (outcome i)] := by
  cases h : outcome i <;>
    simp [stepJob, loggedJob, applyOutcome, outcomeLog, isSkipOutcome,
      isErrOutcome, h]

theorem loopLast_nil (cancel : Nat → Bool) (outcome : Nat → PostOutcome)
    (total i : Nat) (job : Job) :
    loopLast cancel outcome total [] i job = completedJob job := rfl

theorem loopLast_cancel_here (cancel : Nat → Bool) (outcome : Nat → PostOutcome)
    (total i : Nat) (post : Post) (rest : List Post) (job : Job)
    (h : cancel i = true) :
    loopLast cancel outcome total (post :: rest) i job = cancelledJob i total job := by
  simp [loopLast, process_loop, h]

theorem loopLast_step (cancel : Nat → Bool) (outcome : Nat → PostOutcome)
    (total i : Nat) (post : Post) (rest : List Post) (job : Job)
    (h : cancel i = false) :
    loopLast cancel outcome total (post :: rest) i job =
      loopLast cancel outcome total rest (i + 1) (stepJob outcome total i post job) := by
  simp only [loopLast, process_loop, h, Bool.false_eq_true, if_false,
    List.getLastD_cons]

theorem loopLast_log_extends (cancel : Nat → Bool) (outcome : Nat → PostOutcome)
    (total : Nat) :
    ∀ (rest : List Post) (i : Nat) (job : Job),
      job.logEntries <+: (loopLast cancel outcome total rest i job).logEntries := by
  intro rest
  induction rest with
  | nil =>
    intro i job
    rw [loopLast_nil]
    exact List.prefix_append _ _
  | cons post rest ih =>
    intro i job
    by_cases h : cancel i = true
    · rw [loopLast_cancel_here _ _ _ _ _ _ _ h]
      exact List.prefix_append _ _
    · rw [loopLast_step _ _ _ _ _ _ _ (Bool.not_eq_true _ ▸ h)]
      refine List.IsPrefix.trans ?_ (ih _ _)
      rw [(stepJob_proj outcome total i post job).2.2.2.2.2]
      exact List.prefix_append _ _

theorem loopLast_term_status (cancel : Nat → Bool) (outcome : Nat → PostOutcome)
    (total : Nat) :
    ∀ (rest : List Post) (i : Nat) (job : Job),
      (loopLast cancel outcome total rest i job).status = .completed ∨
      (loopLast cancel outcome total rest i job).status = .cancelled := by
  intro rest
  induction rest with
  | nil =>
    intro i job
    rw [loopLast_nil]
    exact Or.inl rfl
  | cons post rest ih =>
    intro i job
    by_cases h : cancel i = true
    · rw [loopLast_cancel_here _ _ _ _ _ _ _ h]
      exact Or.inr rfl
    · rw [loopLast_step _ _ _ _ _ _ _ (Bool.not_eq_true _ ▸ h)]
      exact ih _ _

/-- Running the loop with no cancellation observed in range: all posts are
iterated, counters accumulate one unit per outcome, status COMPLETED. -/
theorem loopLast_complete (cancel : Nat → Bool) (outcome : Nat → PostOutcome)
    (total : Nat) :
    ∀ (rest : List Post) (i : Nat) (job : Job),
      (∀ j, i ≤ j → j < i + rest.length → cancel j = false) →
      (loopLast cancel outcome total rest i job).status = .completed ∧
      (loopLast cancel outcome total rest i job).processedPosts =
        job.processedPosts + rest.length ∧
      (loopLast cancel outcome total rest i job).skippedPosts =
        job.skippedPosts + countFrom isSkipOutcome outcome i rest.length ∧
      (loopLast cancel outcome total rest i job).errorCount =
        job.errorCount + countFrom isErrOutcome outcome i rest.length ∧
      (loopLast cancel outcome total rest i job).totalPosts = job.totalPosts ∧
      (loopLast cancel outcome total rest i job).completedStamped = true := by
  intro rest
  induction rest with
  | nil =>
    intro i job _
    rw [loopLast_nil]
    exact ⟨rfl, rfl, rfl, rfl, rfl, rfl⟩
  | cons post rest ih =>
    intro i job hnc
    have hci : cancel i = false := hnc i (Nat.le_refl i) (by simp)
    rw [loopLast_step _ _ _ _ _ _ _ hci]
    have hnc' : ∀ j, i + 1 ≤ j → j < i + 1 + rest.length → cancel j = false := by
      intro j h1 h2
      exact hnc j (by omega) (by simpa [Nat.add_comm, Nat.add_left_comm] using h2)
    obtain ⟨s1, s2, s3, s4, s5, s6⟩ :=
      ih (i + 1) (stepJob outcome total i post job) hnc'
    obtain ⟨p1, p2, p3, p4, _, _⟩ := stepJob_proj outcome total i post job
    refine ⟨s1, ?_, ?_, ?_, s5.trans p4, s6⟩
    · rw [s2, p1]; simp [List.length_cons]; omega
    · rw [s3, p2]; simp only [countFrom]; omega
    · rw [s4, p3]; simp only [countFrom]; omega

/-- Running the loop with cancellation first observed at index `k` within
range: exactly `k - i` further posts are iterated, status CANCELLED, the
cutoff log line is appended, completion is stamped. -/
theorem loopLast_cancelled (cancel : Nat → Bool) (outcome : Nat → PostOutcome)
    (total : Nat) :
    ∀ (rest : List Post) (i : Nat) (job : Job) (k : Nat),
      i ≤ k → k < i + rest.length →
      (∀ j, i ≤ j → j < k → cancel j = false) → cancel k = true →
      (loopLast cancel outcome total rest i job).status = .cancelled ∧
      (loopLast cancel outcome total rest i job).processedPosts =
        job.processedPosts + (k - i) ∧
      (loopLast cancel outcome total rest i job).skippedPosts =
        job.skippedPosts + countFrom isSkipOutcome outcome i (k - i) ∧
      (loopLast cancel outcome total rest i job).errorCount =
        job.errorCount + countFrom isErrOutcome outcome i (k - i) ∧
      (loopLast cancel outcome total rest i job).totalPosts = job.totalPosts ∧
      (loopLast cancel outcome total rest i job).completedStamped = true ∧
      cancelLog k total ∈ (loopLast cancel outcome total rest i job).logEntries := by
  intro rest
  induction rest with
  | nil =>
    intro i job k h1 h2 _ _
    simp at h2
    omega
  | cons post rest ih =>
    intro i job k h1 h2 hbefore hat
    by_cases hik : i = k
    · subst hik
      rw [loopLast_cancel_here _ _ _ _ _ _ _ hat]
      refine ⟨rfl, by simp [cancelledJob], by simp [cancelledJob, countFrom],
        by simp [cancelledJob, countFrom], rfl, rfl, ?_⟩
      simp [cancelledJob]
    · have hlt : i < k := by omega
      have hci : cancel i = false := hbefore i (Nat.le_refl i) hlt
      rw [loopLast_step _ _ _ _ _ _ _ hci]
      have hbefore' : ∀ j, i + 1 ≤ j → j < k → cancel j = false := by
        intro j ha hb
        exact hbefore j (by omega) hb
      obtain ⟨s1, s2, s3, s4, s5, s6, s7⟩ :=
        ih (i + 1) (stepJob outcome total i post job) k (by omega)
          (by simp at h2 ⊢; omega) hbefore' hat
      obtain ⟨p1, p2, p3, p4, _, _⟩ := stepJob_proj outcome total i post job
      have hk : k - i = (k - (i + 1)) + 1 := by omega
      refine ⟨s1, ?_, ?_, ?_, s5.trans p4, s6, s7⟩
      · rw [s2, p1]; omega
      · rw [s3, p2, hk]; simp only [countFrom]; omega
      · rw [s4, p3, hk]; simp only [countFrom]; omega

/-- The loop consults outcomes only for indices before the first observed
cancellation: runs over outcome assignments agreeing below `k` coincide. -/
theorem process_loop_outcome_agree (cancel : Nat → Bool) (total : Nat)
    (outcome outcome' : Nat → PostOutcome) :
    ∀ (rest : List Post) (i : Nat) (job : Job) (k : Nat),
      i ≤ k →
      (∀ j, i ≤ j → j < k → cancel j = false) → cancel k = true →
      (∀ j, i ≤ j → j < k → outcome j = outcome' j) →
      process_loop cancel outcome total rest i job =
        process_loop cancel outcome' total rest i job := by
  intro rest
  induction rest with
  | nil => intro i job k _ _ _ _; rfl
  | cons post rest ih =>
    intro i job k h1 hbefore hat hagree
    by_cases hik : i = k
    · subst hik
      simp [process_loop, hat]
    · have hlt : i < k := by omega
      have hci : cancel i = false := hbefore i (Nat.le_refl i) hlt
      have ho : outcome i = outcome' i := hagree i (Nat.le_refl i) hlt
      simp only [process_loop, hci, Bool.false_eq_true, if_false]
      have hstep : stepJob outcome total i post job =
          stepJob outcome' total i post job := by
        simp [stepJob, ho]
      rw [hstep, ih (i + 1) (stepJob outcome' total i post job) k (by omega)
        (fun j ha hb => hbefore j (by omega) hb) hat
        (fun j ha hb => hagree j (by omega) hb)]

/-- Every iterated post's outcome log line is in the final log: if no
cancellation is observed up to and including index `m`, index `m`'s outcome
line appears. -/
theorem loopLast_outcome_log (cancel : Nat → Bool) (outcome : Nat → PostOutcome)
    (total : Nat) :
    ∀ (rest : List Post) (i : Nat) (job : Job) (m : Nat),
      i ≤ m → m < i + rest.length →
      (∀ j, i ≤ j → j ≤ m → cancel j = false) →
      outcomeLog (outcome m) ∈
        (loopLast cancel outcome total rest i job).logEntries := by
  intro rest
  induction rest with
  | nil =>
    intro i job m h1 h2 _
    simp at h2
    omega
  | cons post rest ih =>
    intro i job m h1 h2 hnc
    have hci : cancel i = false := hnc i (Nat.le_refl i) h1
    rw [loopLast_step _ _ _ _ _ _ _ hci]
    by_cases him : i = m
    · subst him
      have hmem : outcomeLog (outcome i) ∈
          (stepJob outcome total i post job).logEntries := by
        rw [(stepJob_proj outcome total i post job).2.2.2.2.2]
        simp
      exact (loopLast_log_extends cancel outcome total rest (i + 1)
        (stepJob outcome total i post job)).subset hmem
    · have hlt : i < m := by omega
      exact ih (i + 1) (stepJob outcome total i post job) m (by omega)
        (by simp at h2 ⊢; omega) (fun j ha hb => hnc j (by omega) hb)

/-- Trace invariants of the loop: `total_posts` is never changed, every
committed snapshot's `processed_posts` is bounded by the start value plus the
number of remaining posts, and `processed_posts` never decreases from one
committed snapshot to the next. -/
theorem process_loop_bounds (cancel : Nat → Bool) (outcome : Nat → PostOutcome)
    (total : Nat) :
    ∀ (rest : List Post) (i : Nat) (job : Job),
      (∀ s ∈ process_loop cancel outcome total rest i job,
        s.totalPosts = job.totalPosts ∧
        s.processedPosts ≤ job.processedPosts + rest.length) ∧
      List.Chain' (fun a b => a.processedPosts ≤ b.processedPosts)
        (job :: process_loop cancel outcome total rest i job) := by
  intro rest
  induction rest with
  | nil =>
    intro i job
    refine ⟨?_, ?_⟩
    · intro s hs
      simp [process_loop] at hs
      subst hs
      exact ⟨rfl, Nat.le_add_right _ _⟩
    · simp [process_loop, completedJob, List.chain'_cons]
  | cons post rest ih =>
    intro i job
    by_cases h : cancel i = true
    · refine ⟨?_, ?_⟩
      · intro s hs
        simp [process_loop, h] at hs
        subst hs
        exact ⟨rfl, Nat.le_add_right _ _⟩
      · simp [process_loop, h, cancelledJob, List.chain'_cons]
    · have hci : cancel i = false := Bool.not_eq_true _ ▸ h
      obtain ⟨p1, _, _, p4, _, _⟩ := stepJob_proj outcome total i post job
      obtain ⟨ihm, ihc⟩ := ih (i + 1) (stepJob outcome total i post job)
      refine ⟨?_, ?_⟩
      · intro s hs
        simp only [process_loop, hci, Bool.false_eq_true, if_false,
          List.mem_cons] at hs
        rcases hs with hs | hs | hs
        · subst hs
          exact ⟨rfl, by simp [loggedJob]⟩
        · subst hs
          refine ⟨p4, ?_⟩
          rw [p1]
          simp
        · obtain ⟨m1, m2⟩ := ihm s hs
          refine ⟨m1.trans p4, ?_⟩
          rw [p1] at m2
          simpa [Nat.add_assoc, Nat.add_comm 1 rest.length] using m2
      · simp only [process_loop, hci, Bool.false_eq_true, if_false]
        rw [List.chain'_cons]
        refine ⟨by simp [loggedJob], ?_⟩
        rw [List.chain'_cons]
        refine ⟨?_, ?_⟩
        · have : (stepJob outcome total i post job).processedPosts =
              (loggedJob total i post job).processedPosts + 1 := by
            simp [loggedJob] at p1 ⊢
            omega
          omega
        · have hlog : (loggedJob total i post job).processedPosts =
              job.processedPosts := by simp [loggedJob]
          exact ihc

/-- Unfolding `process_job` for a fresh PENDING job with a resolvable
creator: it is the final state of the post loop started from `startedJob`. -/
theorem process_job_eq_loop (posts : List Post) (cancel : Nat → Bool)
    (outcome : Nat → PostOutcome) :
    process_job true cancel outcome (mkJob posts) =
      loopLast cancel outcome posts.length posts 0 (startedJob posts) := by
  simp only [process_job, process_job_states, mkJob, startedJob, loopLast,
    List.getLastD_cons, List.nil_append, if_true, reduceIte]

/-- Unfolding the committed-states sequence for a fresh PENDING job with a
resolvable creator. -/
theorem process_job_states_eq (posts : List Post) (cancel : Nat → Bool)
    (outcome : Nat → PostOutcome) :
    process_job_states true cancel outcome (mkJob posts) =
      { mkJob posts with status := .running, startedStamped := true } ::
        startedJob posts ::
        process_loop cancel outcome posts.length posts 0 (startedJob posts) := by
  simp only [process_job_states, mkJob, startedJob, List.nil_append]
  rfl

/-- `process_job` when the creator user cannot be resolved: the job is marked
FAILED with the stored error message. -/
theorem process_job_user_missing (posts : List Post) (cancel : Nat → Bool)
    (outcome : Nat → PostOutcome) :
    process_job false cancel outcome (mkJob posts) =
      { mkJob posts with
          status := .failed
          startedStamped := true
          errorMessage := some "Creator user not found"
          completedStamped := true } := by
  simp only [process_job, process_job_states, mkJob]
  rfl

/-- Each iterated post has exactly one of the three outcome kinds. -/
theorem countFrom_sum (outcome : Nat → PostOutcome) :
    ∀ (len s : Nat),
      countFrom isSkipOutcome outcome s len +
        countFrom isCreatedOutcome outcome s len +
        countFrom isErrOutcome outcome s len = len := by
  intro len
  induction len with
  | zero => intro s; rfl
  | succ len ih =>
    intro s
    simp only [countFrom]
    have h := ih (s + 1)
    cases ho : outcome s <;>
      simp [isSkipOutcome, isCreatedOutcome, isErrOutcome, ho] <;> omega

end Dreamware

namespace Dreamware

/-! ## Claim theorems -/

/-! ### C10 — cancelling a terminal job is rejected -/

/-- C10: requesting cancellation of a job whose status is already terminal
(COMPLETED, FAILED or CANCELLED) returns a 400-style error and leaves the job
record unchanged — in particular `cancel_requested` is not set; only a PENDING
or RUNNING job gets its cancellation flag set by the cancel operation. -/
theorem cancel_terminal_job_rejected (jobId : Nat) (job : Job) :
    (job.status = .completed ∨ job.status = .failed ∨ job.status = .cancelled →
      cancel_ingestion_job jobId (some job) =
        (some job,
          .badRequest ("Cannot cancel job with status " ++ job.status.value))) ∧
    (job.status = .pending ∨ job.status = .running →
      cancel_ingestion_job jobId (some job) =
        (some { job with cancelRequested := true },
          .ok true "Cancellation requested. Job will stop after current post.")) := by
  constructor
  · intro h
    simp [cancel_ingestion_job, h]
  · intro h
    have hterm : ¬(job.status = .completed ∨ job.status = .failed ∨
        job.status = .cancelled) := by
      rcases h with h | h <;> simp [h]
    simp [cancel_ingestion_job, hterm]

/-- Witness for C10 at a concrete COMPLETED job: the response is the 400
error and the stored record is returned unchanged. -/
theorem cancel_terminal_job_rejected_witness :
    cancel_ingestion_job 1 (some { mkJob [] with status := .completed }) =
      (some { mkJob [] with status := .completed },
        .badRequest "Cannot cancel job with status completed") :=
  ((cancel_terminal_job_rejected 1 { mkJob [] with status := .completed }).1
    (Or.inl rfl)).trans (by rfl)

/-! ### C3 — slug derivation and uniqueness probing -/

/-- C3: `create_app`'s slug is the title lower-cased, stripped of characters
outside word/space/hyphen, with whitespace/hyphen runs collapsed to single
hyphens, truncated to 100 characters (so "PixelPet - AI Companion!" yields
"pixelpet-ai-companion" and every slug's length is capped at 100); on a
collision with existing slugs, numeric suffixes `-1`, `-2`, … are probed in
order until a free slug is found (here: candidates `0 … k-1` taken, candidate
`k` free, yields candidate `k`). -/
theorem create_app_slug_assignment :
    generateSlug "PixelPet - AI Companion!" = "pixelpet-ai-companion" ∧
    (∀ title : String, (generateSlug title).length ≤ 100) ∧
    (∀ (occupied : List String) (base : String) (k : Nat),
      k ≤ occupied.length →
      (∀ j, j < k → slugCandidate base j ∈ occupied) →
      slugCandidate base k ∉ occupied →
      uniqueSlug occupied base = slugCandidate base k) := by
  refine ⟨by decide, ?_, ?_⟩
  · intro title
    show (List.take 100 _).length ≤ 100
    simp [List.length_take]
  · intro occupied base k hk hocc hfree
    have := probeSlug_eq occupied base k (occupied.length + 1) 0
      (by omega) (by simpa using hocc) (by simpa using hfree)
    simpa [uniqueSlug] using this

/-- Witness for C3: with "pixelpet-ai-companion" already taken, the probe
settles on "pixelpet-ai-companion-1". -/
theorem create_app_slug_assignment_witness :
    uniqueSlug ["pixelpet-ai-companion"] "pixelpet-ai-companion" =
      "pixelpet-ai-companion-1" :=
  (create_app_slug_assignment.2.2 ["pixelpet-ai-companion"]
      "pixelpet-ai-companion" 1 (by decide)
      (fun j hj => by
        have : j = 0 := by omega
        subst this; decide)
      (by decide)).trans (by decide)

/-! ### C5 — dedup on the source permalink -/

/-- Counterexample to C5 as stated: a post whose permalink matches an
existing listing's `post_url` but which has no candidate URLs is skipped with
reason "no_urls", not "post_exists" — the no-URL check runs first. -/
theorem post_exists_counterexample :
    check_post_processed
        [{ slug := "a", postUrl := some "https://reddit.com/r/SideProject/comments/x" }]
        (normPermalink "/r/SideProject/comments/x") = true ∧
    process_single_post
        [{ slug := "a", postUrl := some "https://reddit.com/r/SideProject/comments/x" }]
        { permalink := "/r/SideProject/comments/x" } ≠ .skipPostExists := by
  decide

/-- C5 (amended: provided the post has at least one candidate URL): a post
whose normalized permalink equals an existing listing's `post_url` is skipped
with reason "post_exists"; the agent is never invoked and no listing is
created. -/
theorem post_exists_always_skipped (db : List AppRec) (post : Post)
    (h1 : candidateUrls post ≠ [])
    (h2 : check_post_processed db (normPermalink post.permalink) = true) :
    process_single_post db post = .skipPostExists := by
  simp [process_single_post, List.isEmpty_iff, h1, h2]

/-- Witness for C5 (amended) at a concrete post carrying a candidate URL
whose permalink is already tracked. -/
theorem post_exists_always_skipped_witness :
    process_single_post
        [{ slug := "a", postUrl := some "https://reddit.com/r/SideProject/comments/x" }]
        { permalink := "/r/SideProject/comments/x",
          extractedUrls := ["https://example.com"] } = .skipPostExists :=
  post_exists_always_skipped _ _ (by decide) (by decide)

/-! ### C6 — dedup on candidate URLs -/

/-- Counterexample to C6 as stated: a post with a candidate URL matching an
existing listing's `app_url` is nonetheless skipped with reason "post_exists"
(not "url_exists") when its permalink also matches — the permalink check runs
first. -/
theorem url_exists_counterexample :
    (candidateUrls { permalink := "/r/x", extractedUrls := ["https://example.com"] } ≠ []) ∧
    check_urls_exist
        [{ slug := "a", postUrl := some "https://reddit.com/r/x",
           appUrl := some "https://example.com/app" }]
        (candidateUrls { permalink := "/r/x", extractedUrls := ["https://example.com"] })
      ≠ [] ∧
    ∀ existing,
      process_single_post
          [{ slug := "a", postUrl := some "https://reddit.com/r/x",
             appUrl := some "https://example.com/app" }]
          { permalink := "/r/x", extractedUrls := ["https://example.com"] } ≠
        .skipUrlExists existing := by
  refine ⟨by decide, by decide, ?_⟩
  intro existing
  have : process_single_post
      [{ slug := "a", postUrl := some "https://reddit.com/r/x",
         appUrl := some "https://example.com/app" }]
      { permalink := "/r/x", extractedUrls := ["https://example.com"] } =
      .skipPostExists := by decide
  simp [this]

/-- C6 (amended: provided the post's permalink does not itself match an
existing listing): a post one of whose candidate URLs matches — by
case-insensitive substring containment — an existing listing's `app_url` is
skipped with reason "url_exists", reporting exactly the stored URLs that
matched, and the agent is never invoked. -/
theorem url_exists_always_skipped (db : List AppRec) (post : Post)
    (h1 : candidateUrls post ≠ [])
    (h2 : check_post_processed db (normPermalink post.permalink) = false)
    (h3 : check_urls_exist db (candidateUrls post) ≠ []) :
    process_single_post db post =
      .skipUrlExists (check_urls_exist db (candidateUrls post)) := by
  simp [process_single_post, List.isEmpty_iff, h1, h2, h3]

/-- Witness for C6 (amended) at a concrete post and listing catalog. -/
theorem url_exists_always_skipped_witness :
    process_single_post
        [{ slug := "a", appUrl := some "https://Example.com/app" }]
        { permalink := "/r/y", extractedUrls := ["https://example.com"] } =
      .skipUrlExists ["https://Example.com/app"] :=
  (url_exists_always_skipped _ _ (by decide) (by decide) (by decide)).trans
    (by decide)

/-! ### C7 — candidate URL selection -/

/-- Counterexample to C7 as stated: a post carrying a pre-extracted URL list
(the empty one) does *not* have that list used — Python's `or` falls through
on an empty list and the body text is scanned instead. -/
theorem candidate_urls_counterexample :
    ({ selftext := "see https://example.com" : Post }.extractedUrls = []) ∧
    candidateUrls { selftext := "see https://example.com" } =
      ["https://example.com"] ∧
    candidateUrls { selftext := "see https://example.com" } ≠
      ({ selftext := "see https://example.com" : Post }.extractedUrls) := by
  decide

/-- C7 (amended: a *non-empty* pre-extracted list is used as-is): candidate
URLs come from the pre-extracted list when it is non-empty, otherwise from
scanning the body text for URL-shaped substrings, discarding Reddit/image-host
URLs (no derived URL ever contains one of the filtered hosts); if the
resulting list is empty the post is skipped with reason "no_urls" and the
agent is never invoked. -/
theorem candidate_url_selection (db : List AppRec) (post : Post) :
    (post.extractedUrls ≠ [] → candidateUrls post = post.extractedUrls) ∧
    (post.extractedUrls = [] → candidateUrls post = extract_urls post.selftext) ∧
    (candidateUrls post = [] → process_single_post db post = .skipNoUrls) ∧
    (∀ u ∈ extract_urls post.selftext, isFilteredUrl u = false) := by
  refine ⟨?_, ?_, ?_, ?_⟩
  · intro h
    simp [candidateUrls, List.isEmpty_iff, h]
  · intro h
    simp [candidateUrls, List.isEmpty_iff, h]
  · intro h
    simp [process_single_post, List.isEmpty_iff, h]
  · intro u hu
    unfold extract_urls at hu
    by_cases ht : post.selftext = ""
    · simp [ht] at hu
    · rw [if_neg ht] at hu
      have := List.of_mem_filter hu
      simpa using this

/-- Witness for C7 (amended) at concrete posts: a non-empty pre-extracted
list is used as-is, and a post with no candidate URLs is skipped. -/
theorem candidate_url_selection_witness :
    candidateUrls { selftext := "x", extractedUrls := ["https://a.com"] } =
      ["https://a.com"] ∧
    process_single_post [] { selftext := "nothing here" } = .skipNoUrls :=
  ⟨(candidate_url_selection [] _).1 (by decide),
   (candidate_url_selection [] { selftext := "nothing here" }).2.2.1 (by decide)⟩

/-! ### C2 — browser step ceiling -/

/-- C2: once `MAX_BROWSER_STEPS = 10` browser tool calls have been counted in
a run, every further browser tool call (navigate, screenshot, get content,
click, scroll) returns the structured limit-reached error, performs no
underlying browser action, and leaves the step counter (and all other run
state) unchanged; `create_app` is not step-limited, so the run can still
create a listing afterwards. -/
theorem browser_step_ceiling (exec : BrowserAct → BrowserResult)
    (act : BrowserAct) (d : AgentDeps)
    (h : d.browserStepCount = MAX_BROWSER_STEPS) :
    runBrowserTool exec act d = (.err limitMessage, d, []) ∧
    ∀ (upload : String → Except String String) (a : CreateAppArgs),
      validStatus a.status = true →
      (a.status = "Live" → a.appUrl.isNone = false) →
      ∃ (mu : Nat) (me : List String) (d' : AgentDeps),
        create_app upload a d =
          (.created d.nextAppId (createAppSlug a d) a.title
            ("https://show-your.app/apps/" ++ createAppSlug a d) mu me, d') ∧
        d'.db = d.db ++
          [{ slug := createAppSlug a d, postUrl := a.postUrl, appUrl := a.appUrl }] := by
  constructor
  · simp [runBrowserTool, _check_browser_limit, h]
  · intro upload a hs hl
    exact ⟨_, _, _, create_app_ok upload a d hs hl, rfl⟩

/-- Witness for C2: a concrete run state with 10 counted browser steps — a
navigate call returns the limit error and changes nothing, and `create_app`
still creates a listing. -/
theorem browser_step_ceiling_witness :
    runBrowserTool (fun _ => {}) (BrowserAct.navigate "https://x.com") exDeps =
      (.err limitMessage, exDeps, []) ∧
    ∃ (mu : Nat) (me : List String) (d' : AgentDeps),
      create_app (fun _ => Except.ok "https://cdn.example/x.png") exArgs exDeps =
        (.created exDeps.nextAppId (createAppSlug exArgs exDeps) exArgs.title
          ("https://show-your.app/apps/" ++ createAppSlug exArgs exDeps) mu me, d') ∧
      d'.db = exDeps.db ++
        [{ slug := createAppSlug exArgs exDeps, postUrl := exArgs.postUrl,
           appUrl := exArgs.appUrl }] :=
  ⟨(browser_step_ceiling (fun _ => {}) (BrowserAct.navigate "https://x.com")
      exDeps rfl).1,
   (browser_step_ceiling (fun _ => {}) (BrowserAct.navigate "https://x.com")
      exDeps rfl).2 (fun _ => Except.ok "https://cdn.example/x.png") exArgs
      (by decide) (fun h => absurd h (by decide))⟩

/-! ### C9 — media attach is best-effort -/

/-- C9: during `create_app`'s screenshot auto-attach, each file's upload
failure is reported independently (as "filename: error") in the creation
result's media error list, and the listing creation still succeeds — the
result is the success dict carrying the new listing id and slug, and the new
listing is persisted — whichever subset of the uploads fails. -/
theorem create_app_media_best_effort (upload : String → Except String String)
    (a : CreateAppArgs) (d : AgentDeps)
    (hs : validStatus a.status = true)
    (hl : a.status = "Live" → a.appUrl.isNone = false) :
    ∃ d' : AgentDeps,
      create_app upload a d =
        (.created d.nextAppId (createAppSlug a d) a.title
          ("https://show-your.app/apps/" ++ createAppSlug a d)
          ((d.savedScreenshots.filter (fun p =>
              match upload p with | .ok _ => true | .error _ => false)).length)
          (d.savedScreenshots.filterMap (fun p =>
              match upload p with
              | .error e => some (pathName p ++ ": " ++ e)
              | .ok _ => none)), d') ∧
      d'.db = d.db ++
        [{ slug := createAppSlug a d, postUrl := a.postUrl, appUrl := a.appUrl }] ∧
      d'.createdAppIds = d.createdAppIds ++ [d.nextAppId] :=
  ⟨_, create_app_ok upload a d hs hl, rfl, rfl⟩

/-- Witness for C9: two screenshots, the first upload fails — the result is
still the success dict for the new listing, with the failed file reported as
"a.png: Upload failed: boom" and one upload counted. -/
theorem create_app_media_best_effort_witness :
    ∃ d' : AgentDeps,
      create_app exUpload exArgs exDeps9 =
        (.created 1 "t" "T" "https://show-your.app/apps/t" 1
          ["a.png: Upload failed: boom"], d') ∧
      d'.db = [{ slug := "t", postUrl := none, appUrl := none }] := by
  obtain ⟨d', h1, h2, _⟩ :=
    create_app_media_best_effort exUpload exArgs exDeps9 (by decide)
      (fun h => absurd h (by decide))
  refine ⟨d', ?_, ?_⟩
  · rw [h1]
    congr 1
  · rw [h2]
    decide

/-! ### C1 — cooperative cancellation cutoff -/

/-- C1: if the cancellation flag is first observed set at the start of
iteration `i` (i.e. it was set before post `i+1`, 1-based, began, and not
before any earlier post), the worker processes no post with index greater
than `i`: the final status is CANCELLED, `processed_posts = i`, the
"Cancelled at post i+1/n" cutoff log line is appended and completion is
stamped; the result does not depend on the outcomes of posts `≥ i`, which are
never processed. -/
theorem cancellation_cutoff (posts : List Post) (cancel : Nat → Bool)
    (outcome : Nat → PostOutcome) (i : Nat)
    (hi : i < posts.length)
    (hbefore : ∀ j, j < i → cancel j = false)
    (hat : cancel i = true) :
    (process_job true cancel outcome (mkJob posts)).status = .cancelled ∧
    (process_job true cancel outcome (mkJob posts)).processedPosts = i ∧
    cancelLog i posts.length ∈
      (process_job true cancel outcome (mkJob posts)).logEntries ∧
    (process_job true cancel outcome (mkJob posts)).completedStamped = true ∧
    ∀ outcome' : Nat → PostOutcome,
      (∀ j, j < i → outcome j = outcome' j) →
      process_job true cancel outcome' (mkJob posts) =
        process_job true cancel outcome (mkJob posts) := by
  obtain ⟨s1, s2, s3, s4, s5, s6, s7⟩ :=
    loopLast_cancelled cancel outcome posts.length posts 0 (startedJob posts) i
      (Nat.zero_le i) (by simpa using hi) (fun j _ hb => hbefore j hb) hat
  rw [process_job_eq_loop]
  refine ⟨s1, ?_, s7, s6, ?_⟩
  · rw [s2]
    simp [startedJob, mkJob]
  · intro outcome' hagree
    rw [process_job_eq_loop posts cancel outcome']
    unfold loopLast
    rw [process_loop_outcome_agree cancel posts.length outcome' outcome posts 0
      (startedJob posts) i (Nat.zero_le i) (fun j _ hb => hbefore j hb) hat
      (fun j _ hb => (hagree j hb).symm)]

/-- Witness for C1: a 3-post job whose cancellation flag turns on while post
0 is processed — exactly one post is processed and the run is CANCELLED. -/
theorem cancellation_cutoff_witness :
    (process_job true exCancelAt1 exOutcomeSkip (mkJob exPosts)).status =
      .cancelled ∧
    (process_job true exCancelAt1 exOutcomeSkip (mkJob exPosts)).processedPosts = 1 := by
  obtain ⟨h1, h2, _, _, _⟩ :=
    cancellation_cutoff exPosts exCancelAt1 exOutcomeSkip 1 (by decide)
      (fun j hj => by
        have : j = 0 := by omega
        subst this
        rfl)
      rfl
  exact ⟨h1, h2⟩

/-! ### C4 — per-post error isolation -/

/-- C4: an exception while processing a single post is caught at the per-post
boundary — the error counter is incremented (it counts exactly the error-kind
outcomes), the message truncated to 200 characters is logged, and the job
continues with the next post, reaching COMPLETED (or CANCELLED) but never
FAILED; FAILED arises only from outside per-post processing, namely when the
creator user cannot be resolved. -/
theorem per_post_errors_isolated (posts : List Post) (cancel : Nat → Bool)
    (outcome : Nat → PostOutcome) :
    ((process_job true cancel outcome (mkJob posts)).status = .completed ∨
      (process_job true cancel outcome (mkJob posts)).status = .cancelled) ∧
    (process_job false cancel outcome (mkJob posts)).status = .failed ∧
    (process_job false cancel outcome (mkJob posts)).errorMessage =
      some "Creator user not found" ∧
    (∀ i msg, i < posts.length → outcome i = .exn msg →
      (∀ j, j ≤ i → cancel j = false) →
      ("  Exception: " ++ msg.take 200) ∈
        (process_job true cancel outcome (mkJob posts)).logEntries) ∧
    ((∀ j, j < posts.length → cancel j = false) →
      (process_job true cancel outcome (mkJob posts)).processedPosts =
        posts.length ∧
      (process_job true cancel outcome (mkJob posts)).errorCount =
        countFrom isErrOutcome outcome 0 posts.length) := by
  refine ⟨?_, ?_, ?_, ?_, ?_⟩
  · rw [process_job_eq_loop]
    exact loopLast_term_status cancel outcome posts.length posts 0 _
  · rw [process_job_user_missing]
  · rw [process_job_user_missing]
  · intro i msg hi hout hnc
    rw [process_job_eq_loop]
    have h := loopLast_outcome_log cancel outcome posts.length posts 0
      (startedJob posts) i (Nat.zero_le i) (by simpa using hi)
      (fun j _ hb => hnc j hb)
    rw [hout] at h
    exact h
  · intro hnc
    obtain ⟨_, s2, _, s4, _, _⟩ :=
      loopLast_complete cancel outcome posts.length posts 0 (startedJob posts)
        (fun j _ hb => hnc j (by simpa using hb))
    rw [process_job_eq_loop, s2, s4]
    constructor
    · simp [startedJob, mkJob]
    · simp [startedJob, mkJob]

/-- Witness for C4: a 3-post job whose second post raises — the exception is
logged truncated and all three posts are still processed. -/
theorem per_post_errors_isolated_witness :
    ("  Exception: " ++ "boom".take 200) ∈
      (process_job true (fun _ => false) exOutcomeErr (mkJob exPosts)).logEntries ∧
    (process_job true (fun _ => false) exOutcomeErr (mkJob exPosts)).processedPosts = 3 := by
  obtain ⟨_, _, _, h4, h5⟩ :=
    per_post_errors_isolated exPosts (fun _ => false) exOutcomeErr
  refine ⟨h4 1 "boom" (by decide) rfl (fun j _ => rfl), ?_⟩
  exact ((h5 (fun j _ => rfl)).1).trans (by decide)

/-! ### C8 — counter accounting and monotonicity -/

/-- C8: for a fresh job run to COMPLETED (no cancellation observed) or to
CANCELLED (flag first observed at `k`), `processed_posts` equals the number
of posts actually iterated, and the numbers of skip-, created- and
error-outcome posts sum to `processed_posts` (with the job's skip/error
counters matching their outcome counts); moreover over the whole sequence of
committed job states, `processed_posts` never exceeds `total_posts` and never
decreases. -/
theorem job_counter_invariants (posts : List Post) (cancel : Nat → Bool)
    (outcome : Nat → PostOutcome) :
    ((∀ j, j < posts.length → cancel j = false) →
      (process_job true cancel outcome (mkJob posts)).status = .completed ∧
      (process_job true cancel outcome (mkJob posts)).processedPosts =
        posts.length ∧
      (process_job true cancel outcome (mkJob posts)).skippedPosts =
        countFrom isSkipOutcome outcome 0 posts.length ∧
      (process_job true cancel outcome (mkJob posts)).errorCount =
        countFrom isErrOutcome outcome 0 posts.length ∧
      countFrom isSkipOutcome outcome 0 posts.length +
        countFrom isCreatedOutcome outcome 0 posts.length +
        countFrom isErrOutcome outcome 0 posts.length =
        (process_job true cancel outcome (mkJob posts)).processedPosts) ∧
    (∀ k, k < posts.length → (∀ j, j < k → cancel j = false) →
      cancel k = true →
      (process_job true cancel outcome (mkJob posts)).status = .cancelled ∧
      (process_job true cancel outcome (mkJob posts)).processedPosts = k ∧
      (process_job true cancel outcome (mkJob posts)).skippedPosts =
        countFrom isSkipOutcome outcome 0 k ∧
      (process_job true cancel outcome (mkJob posts)).errorCount =
        countFrom isErrOutcome outcome 0 k ∧
      countFrom isSkipOutcome outcome 0 k +
        countFrom isCreatedOutcome outcome 0 k +
        countFrom isErrOutcome outcome 0 k =
        (process_job true cancel outcome (mkJob posts)).processedPosts) ∧
    (∀ s ∈ process_job_states true cancel outcome (mkJob posts),
      s.processedPosts ≤ s.totalPosts) ∧
    List.Chain' (fun a b => a.processedPosts ≤ b.processedPosts)
      (process_job_states true cancel outcome (mkJob posts)) := by
  refine ⟨?_, ?_, ?_, ?_⟩
  · intro hnc
    obtain ⟨s1, s2, s3, s4, _, _⟩ :=
      loopLast_complete cancel outcome posts.length posts 0 (startedJob posts)
        (fun j _ hb => hnc j (by simpa using hb))
    rw [process_job_eq_loop, s1, s2, s3, s4]
    have hsum := countFrom_sum outcome posts.length 0
    refine ⟨rfl, by simp [startedJob, mkJob], by simp [startedJob, mkJob],
      by simp [startedJob, mkJob], ?_⟩
    simp [startedJob, mkJob]
    omega
  · intro k hk hbefore hat
    obtain ⟨s1, s2, s3, s4, _, _, _⟩ :=
      loopLast_cancelled cancel outcome posts.length posts 0 (startedJob posts) k
        (Nat.zero_le k) (by simpa using hk) (fun j _ hb => hbefore j hb) hat
    rw [process_job_eq_loop, s1, s2, s3, s4]
    have hsum := countFrom_sum outcome k 0
    refine ⟨rfl, by simp [startedJob, mkJob], by simp [startedJob, mkJob],
      by simp [startedJob, mkJob], ?_⟩
    simp [startedJob, mkJob]
    omega
  · intro s hs
    rw [process_job_states_eq] at hs
    simp only [List.mem_cons] at hs
    rcases hs with hs | hs | hs
    · subst hs; exact Nat.zero_le _
    · subst hs; exact Nat.zero_le _
    · obtain ⟨m1, m2⟩ :=
        ((process_loop_bounds cancel outcome posts.length posts 0
          (startedJob posts)).1 s hs)
      rw [m1]
      refine le_trans m2 ?_
      simp [startedJob, mkJob]
  · rw [process_job_states_eq]
    rw [List.chain'_cons]
    refine ⟨Nat.le_refl _, ?_⟩
    exact (process_loop_bounds cancel outcome posts.length posts 0
      (startedJob posts)).2

/-- Witness for C8: the 3-post all-skip run — three posts iterated, all three
counted as skip outcomes. -/
theorem job_counter_invariants_witness :
    (process_job true (fun _ => false) exOutcomeSkip (mkJob exPosts)).processedPosts = 3 ∧
    (process_job true (fun _ => false) exOutcomeSkip (mkJob exPosts)).skippedPosts = 3 := by
  obtain ⟨_, h2, h3, _, _⟩ :=
    (job_counter_invariants exPosts (fun _ => false) exOutcomeSkip).1
      (fun j _ => rfl)
  exact ⟨h2.trans (by decide), h3.trans (by decide)⟩

end Dreamware
